import Mathlib

/-!
Verification of `src/orchestrator.py` (class `Orchestrator`) against its
natural-language specification.

The Python code is shallowly embedded: the external collaborators (the
Anthropic generation client and the GitHub hosting API) are modelled as
oracle functions supplied in environment records, exactly as the spec
treats them ("external collaborators"), while every piece of decision
logic in the orchestrator itself (`_create_user_story` parsing,
`_decide_agents`, `_spawn_specialists_sequential`, `_create_branch`,
`_execute_gsd`, `_wait_for_pr`, `_slugify`, `handle_request`) is
translated directly from the source.

Python stdlib pieces the orchestrator relies on are modelled as follows:
- `json.loads` : a fuel-based recursive-descent JSON parser (`loads`)
  over objects, arrays, strings (with the standard escapes), integers,
  `true`/`false`/`null`.  Floats, `NaN`/`Infinity` and astral-plane
  `\uXXXX` surrogate pairs are outside the model; all inputs used in
  concrete theorems stay inside the modelled fragment.  Duplicate object
  keys follow Python dict semantics (first occurrence fixes the position,
  last occurrence fixes the value), implemented by `dictCons`.
- `json.dumps` : `dumps`, with the default separators `", "` / `": "`
  and `ensure_ascii=True` escaping (non-ASCII and control characters are
  emitted as `\uXXXX`, lowercase hex, surrogate pairs above the BMP).
- `str.lower` : `pyLowerChar` (ASCII case mapping; the handful of
  non-ASCII Unicode case mappings is outside the model and no theorem
  below depends on them).
- `re.search(r'\x7b.*\x7d', content, re.DOTALL)` : `reSearchGreedyBraces`,
  the leftmost-greedy match of that pattern: the match starts at the
  first `\x7b` that is followed by some later `\x7d` and, because `.*` is
  greedy and DOTALL makes `.` match newlines, ends at the last `\x7d` of
  the whole text.
- `re.sub(r'[^a-z0-9]+', '-', text)` : `subNonAlnum false`, which
  replaces every maximal run of characters outside `[a-z0-9]` with a
  single `'-'`.
- `str.strip('-')` : `stripDash`.
Python exceptions are represented by the `PyErr` type; note the code
never defines `SpecificationParseError`, `SpecificationFormatError`,
`BranchProvisionError` or `PullRequestTimeoutError` — the only
exceptions reachable in the modelled fragment are `ValueError`,
`json.JSONDecodeError`, `KeyError`, `TypeError` and `AttributeError`.
-/

/-- Python exceptions that the orchestrator code can actually raise. -/
inductive PyErr where
  | valueError (msg : String)
  | jsonDecodeError
  | keyError (k : String)
  | typeError
  | attributeError
deriving DecidableEq

/-- Parsed JSON values, as produced by `json.loads` (objects are Python
dicts, modelled as key-unique association lists in insertion order). -/
inductive PyJson where
  | null
  | bool (b : Bool)
  | num (n : Int)
  | str (s : String)
  | arr (xs : List PyJson)
  | obj (kvs : List (String × PyJson))

/-- JSON whitespace accepted by Python's `json.loads`. -/
def isJsonWs (c : Char) : Bool := c == ' ' || c == '\t' || c == '\n' || c == '\r'

def skipWs (s : List Char) : List Char := s.dropWhile isJsonWs

/-- Value of a hex digit, as in `\uXXXX` escapes. -/
def hexVal (c : Char) : Option Nat :=
  if 48 ≤ c.toNat && c.toNat ≤ 57 then some (c.toNat - 48)
  else if 97 ≤ c.toNat && c.toNat ≤ 102 then some (c.toNat - 87)
  else if 65 ≤ c.toNat && c.toNat ≤ 70 then some (c.toNat - 55)
  else none

/-- Body of a JSON string literal after the opening quote: returns the
decoded characters and the remaining input after the closing quote.
Python's strict mode rejects raw control characters. -/
def parseStringBody : List Char → Option (List Char × List Char)
  | [] => none
  | '"' :: rest => some ([], rest)
  | '\\' :: '"' :: rest => (parseStringBody rest).map (fun p => ('"' :: p.1, p.2))
  | '\\' :: '\\' :: rest => (parseStringBody rest).map (fun p => ('\\' :: p.1, p.2))
  | '\\' :: '/' :: rest => (parseStringBody rest).map (fun p => ('/' :: p.1, p.2))
  | '\\' :: 'n' :: rest => (parseStringBody rest).map (fun p => ('\n' :: p.1, p.2))
  | '\\' :: 't' :: rest => (parseStringBody rest).map (fun p => ('\t' :: p.1, p.2))
  | '\\' :: 'r' :: rest => (parseStringBody rest).map (fun p => ('\r' :: p.1, p.2))
  | '\\' :: 'b' :: rest => (parseStringBody rest).map (fun p => (Char.ofNat 8 :: p.1, p.2))
  | '\\' :: 'f' :: rest => (parseStringBody rest).map (fun p => (Char.ofNat 12 :: p.1, p.2))
  | '\\' :: 'u' :: h1 :: h2 :: h3 :: h4 :: rest =>
      match hexVal h1, hexVal h2, hexVal h3, hexVal h4 with
      | some a, some b, some c, some d =>
          (parseStringBody rest).map
            (fun p => (Char.ofNat (a * 4096 + b * 256 + c * 16 + d) :: p.1, p.2))
      | _, _, _, _ => none
  | '\\' :: _ => none
  | c :: rest =>
      if c.toNat < 32 then none
      else (parseStringBody rest).map (fun p => (c :: p.1, p.2))

def isDigitChar (c : Char) : Bool := 48 ≤ c.toNat && c.toNat ≤ 57

def digitsToNat (l : List Char) : Nat := l.foldl (fun acc c => acc * 10 + (c.toNat - 48)) 0

/-- JSON integer literal (Python would also accept floats; the model
rejects them, and no concrete input below uses one). -/
def parseNumber (s : List Char) : Option (PyJson × List Char) :=
  let (neg, s1) := match s with
                   | '-' :: rest => (true, rest)
                   | _ => (false, s)
  let digits := s1.takeWhile isDigitChar
  let rest := s1.dropWhile isDigitChar
  if digits.isEmpty then none
  else if digits.length > 1 && digits.headD '0' == '0' then none
  else match rest with
       | '.' :: _ => none
       | 'e' :: _ => none
       | 'E' :: _ => none
       | _ =>
         let n : Int := Int.ofNat (digitsToNat digits)
         some (.num (if neg then -n else n), rest)

/-- Python dict building for object members parsed left to right:
the first occurrence of a key fixes its position, the last fixes its
value (`d[k] = v` in a loop). -/
def pyLookup : List (String × PyJson) → String → Option PyJson
  | [], _ => none
  | (k0, v0) :: rest, k => if k0 = k then some v0 else pyLookup rest k

def removeKey : List (String × PyJson) → String → List (String × PyJson)
  | [], _ => []
  | (k0, v0) :: rest, k => if k0 = k then rest else (k0, v0) :: removeKey rest k

def dictCons (k : String) (v : PyJson) (kvs : List (String × PyJson)) :
    List (String × PyJson) :=
  match pyLookup kvs k with
  | some v2 => (k, v2) :: removeKey kvs k
  | none => (k, v) :: kvs

inductive PMode where
  | value
  | members
  | elements

inductive POut where
  | value (j : PyJson)
  | members (kvs : List (String × PyJson))
  | elements (xs : List PyJson)

/-- Recursive-descent core of the `json.loads` model.  `members` parses
`"k": v (, "k": v)* \x7d`, `elements` parses `v (, v)* ]`.  The fuel
only bounds nesting/iteration and is chosen large enough in `loads`. -/
def parseCore : Nat → PMode → List Char → Option (POut × List Char)
  | 0, _, _ => none
  | Nat.succ fuel, PMode.value, s =>
    match skipWs s with
    | '{' :: rest =>
        (match skipWs rest with
         | '}' :: r2 => some (.value (.obj []), r2)
         | _ =>
           match parseCore fuel .members rest with
           | some (.members kvs, r2) => some (.value (.obj kvs), r2)
           | _ => none)
    | '[' :: rest =>
        (match skipWs rest with
         | ']' :: r2 => some (.value (.arr []), r2)
         | _ =>
           match parseCore fuel .elements rest with
           | some (.elements xs, r2) => some (.value (.arr xs), r2)
           | _ => none)
    | '"' :: rest =>
        (match parseStringBody rest with
         | some (cs, r2) => some (.value (.str (String.mk cs)), r2)
         | none => none)
    | 't' :: 'r' :: 'u' :: 'e' :: rest => some (.value (.bool true), rest)
    | 'f' :: 'a' :: 'l' :: 's' :: 'e' :: rest => some (.value (.bool false), rest)
    | 'n' :: 'u' :: 'l' :: 'l' :: rest => some (.value .null, rest)
    | rest =>
        (match parseNumber rest with
         | some (j, r2) => some (.value j, r2)
         | none => none)
  | Nat.succ fuel, PMode.members, s =>
    match skipWs s with
    | '"' :: rest =>
      (match parseStringBody rest with
       | some (kcs, r1) =>
         (match skipWs r1 with
          | ':' :: r2 =>
            (match parseCore fuel .value r2 with
             | some (.value v, r3) =>
               (match skipWs r3 with
                | ',' :: r4 =>
                  (match parseCore fuel .members r4 with
                   | some (.members kvs, r5) =>
                       some (.members (dictCons (String.mk kcs) v kvs), r5)
                   | _ => none)
                | '}' :: r4 => some (.members [(String.mk kcs, v)], r4)
                | _ => none)
             | _ => none)
          | _ => none)
       | none => none)
    | _ => none
  | Nat.succ fuel, PMode.elements, s =>
    match parseCore fuel .value s with
    | some (.value v, r1) =>
      (match skipWs r1 with
       | ',' :: r2 =>
         (match parseCore fuel .elements r2 with
          | some (.elements xs, r3) => some (.elements (v :: xs), r3)
          | _ => none)
       | ']' :: r2 => some (.elements [v], r2)
       | _ => none)
    | _ => none

/-- Model of `json.loads`: parse one value and require only trailing
whitespace after it (Python raises "Extra data" otherwise). -/
def loads (s : String) : Option PyJson :=
  match parseCore (2 * s.data.length + 2) PMode.value s.data with
  | some (POut.value j, rest) => if skipWs rest = [] then some j else none
  | _ => none

/-! ### `json.dumps` model -/

def hexDigitChar (n : Nat) : Char :=
  if n < 10 then Char.ofNat (48 + n) else Char.ofNat (87 + n)

def hex4 (n : Nat) : String :=
  String.mk [hexDigitChar (n / 4096 % 16), hexDigitChar (n / 256 % 16),
             hexDigitChar (n / 16 % 16), hexDigitChar (n % 16)]

def uEscape (n : Nat) : String := "\\u" ++ hex4 n

/-- One character of a dumped JSON string under `ensure_ascii=True`. -/
def escapeChar (c : Char) : String :=
  if c = '"' then "\\\""
  else if c = '\\' then "\\\\"
  else if c = '\n' then "\\n"
  else if c = '\r' then "\\r"
  else if c = '\t' then "\\t"
  else if c.toNat = 8 then "\\b"
  else if c.toNat = 12 then "\\f"
  else if c.toNat < 32 || c.toNat > 126 then
    if c.toNat ≤ 65535 then uEscape c.toNat
    else uEscape (55296 + (c.toNat - 65536) / 1024) ++ uEscape (56320 + (c.toNat - 65536) % 1024)
  else String.singleton c

def encStr (s : String) : String :=
  "\"" ++ String.join (s.data.map escapeChar) ++ "\""

mutual

/-- Model of `json.dumps` with the default separators `", "`, `": "`. -/
def dumps : PyJson → String
  | .null => "null"
  | .bool true => "true"
  | .bool false => "false"
  | .num n => toString n
  | .str s => encStr s
  | .arr xs => "[" ++ dumpsElems xs ++ "]"
  | .obj kvs => "\x7b" ++ dumpsMembers kvs ++ "\x7d"

def dumpsElems : List PyJson → String
  | [] => ""
  | [x] => dumps x
  | x :: y :: rest => dumps x ++ ", " ++ dumpsElems (y :: rest)

def dumpsMembers : List (String × PyJson) → String
  | [] => ""
  | [(k, v)] => encStr k ++ ": " ++ dumps v
  | (k, v) :: m :: rest => encStr k ++ ": " ++ dumps v ++ ", " ++ dumpsMembers (m :: rest)

end

/-! ### Regex models used by the orchestrator -/

/-- Index of the last occurrence of `c`. -/
def lastIdxOf (c : Char) : List Char → Option Nat
  | [] => none
  | a :: rest =>
    match lastIdxOf c rest with
    | some j => some (j + 1)
    | none => if a = c then some 0 else none

/-- Index of the first occurrence of `c`. -/
def firstIdxOf (c : Char) : List Char → Option Nat
  | [] => none
  | a :: rest => if a = c then some 0 else (firstIdxOf c rest).map (· + 1)

/-- `re.search` of the pattern `\x7b.*\x7d` with `re.DOTALL`: the match is
leftmost (starts at the first `\x7b` having some later `\x7d`, i.e. the
first `\x7b` before the last `\x7d`) and greedy (ends at the last `\x7d`
of the whole text, since DOTALL `.` also consumes newlines). -/
def reSearchGreedyBraces (s : List Char) : Option (List Char) :=
  match lastIdxOf '}' s with
  | none => none
  | some j =>
    match firstIdxOf '{' (s.take j) with
    | none => none
    | some i => some ((s.drop i).take (j - i + 1))

/-! ### `_create_user_story` (lines 101-133)

The Anthropic call itself is external; `content` below is
`response.content[0].text`.  The code then runs the greedy regex search
and `json.loads(json_match.group())`, raising
`ValueError("No JSON found in response")` when there is no match and
letting `json.JSONDecodeError` escape when the matched span is not valid
JSON.  No field of the parsed object is validated. -/
def _create_user_story (content : String) : Except PyErr PyJson :=
  match reSearchGreedyBraces content.data with
  | some m =>
    (match loads (String.mk m) with
     | some j => .ok j
     | none => .error .jsonDecodeError)
  | none => .error (.valueError "No JSON found in response")

/-! ### `_decide_agents` (lines 135-164) -/

def isPrefixList : List Char → List Char → Bool
  | [], _ => true
  | _ :: _, [] => false
  | a :: as, b :: bs => a == b && isPrefixList as bs

def isInfixList : List Char → List Char → Bool
  | n, [] => n.isEmpty
  | n, b :: t => isPrefixList n (b :: t) || isInfixList n t

/-- `word in story_text` for Python strings is contiguous-substring
membership. -/
def strContains (haystack needle : String) : Bool :=
  isInfixList needle.data haystack.data

def newFeatureWords : List String :=
  ["añade", "implementa", "crea", "nueva", "añadir", "agregar", "auth", "integra", "conecta"]

def securityWords : List String :=
  ["auth", "security", "password", "token", "pharma", "patient", "hipaa"]

/-- ASCII case mapping of `str.lower` (sufficient for every property
proved below; `json.dumps(..., ensure_ascii=True)` output is ASCII). -/
def pyLowerChar (c : Char) : Char :=
  if 65 ≤ c.toNat && c.toNat ≤ 90 then Char.ofNat (c.toNat + 32) else c

def pyLowerStr (s : String) : String := String.mk (s.data.map pyLowerChar)

/-- Routing rules of `_decide_agents`: keyword membership over
`json.dumps(user_story).lower()`; `researcher` is appended first when a
new-feature keyword matches, then `architect` and `documenter`
unconditionally, then `security` on a sensitive-data keyword match.
`list(set(agents))` returns the distinct elements in unspecified order;
it is modelled by `List.dedup` (the claims about it concern only
membership and duplicate-freedom). -/
def _decide_agents (user_story : PyJson) : List String :=
  let story_text := pyLowerStr (dumps user_story)
  let agents : List String :=
    (if newFeatureWords.any (fun w => strContains story_text w) then ["researcher"] else [])
    ++ ["architect", "documenter"]
    ++ (if securityWords.any (fun w => strContains story_text w) then ["security"] else [])
  agents.dedup

/-! ### `_slugify` (lines 374-380) -/

/-- The character class `[a-z0-9]`. -/
def isLowerAlnumB (c : Char) : Bool :=
  (97 ≤ c.toNat && c.toNat ≤ 122) || (48 ≤ c.toNat && c.toNat ≤ 57)

/-- `re.sub(r'[^a-z0-9]+', '-', text)`: every maximal run of characters
outside `[a-z0-9]` becomes one `'-'`.  The Boolean argument records
whether we are inside such a run (so the run produces a single dash). -/
def subNonAlnum : Bool → List Char → List Char
  | _, [] => []
  | inRun, c :: rest =>
    if isLowerAlnumB c then c :: subNonAlnum false rest
    else if inRun then subNonAlnum true rest
    else '-' :: subNonAlnum true rest

def isDash (c : Char) : Bool := c == '-'

/-- `text.strip('-')`. -/
def stripDash (l : List Char) : List Char :=
  ((l.dropWhile isDash).reverse.dropWhile isDash).reverse

def _slugify (text : String) : String :=
  String.mk (stripDash (subNonAlnum false ((pyLowerStr text).data)))

/-! ### Role executors, sequencer, branch, handoff, watcher, coordinator -/

/-- The generation collaborator: one oracle per LLM call site.  Each
`_spawn_*` helper sends a role prompt built from the user story (plus,
for the architect, the optional researcher/security outputs) and returns
the response text. -/
structure GenEnv where
  userStoryContent : String → String
  researcher : PyJson → String
  security : PyJson → String
  architect : PyJson → Option String → Option String → String
  documenter : PyJson → String

/-- The hosting collaborator: `refsMainJson repo` is
`requests.get(...).json()` for `GET git/refs/heads/main`, and
`createRefOk repo branch sha` is the success of the `POST git/refs`
call (whose result line 340 discards). -/
structure HostEnv where
  refsMainJson : String → PyJson
  createRefOk : String → String → PyJson → Bool

/-- Python `d[k]`: `KeyError` when the key is absent, `TypeError` when
the subscripted value is not a dict. -/
def jsonIndex (j : PyJson) (k : String) : Except PyErr PyJson :=
  match j with
  | .obj kvs =>
    (match pyLookup kvs k with
     | some v => .ok v
     | none => .error (.keyError k))
  | _ => .error .typeError

/-- Lines 330-331: `response.json()['object']['sha']`. -/
def resolveSha (host : HostEnv) (repo : String) : Except PyErr PyJson := do
  let objField ← jsonIndex (host.refsMainJson repo) "object"
  jsonIndex objField "sha"

/-- `.lower()` on a non-string raises `AttributeError`; `_slugify` is
only ever reached with `user_story['title']`. -/
def asPyStr (j : PyJson) : Except PyErr String :=
  match j with
  | .str s => .ok s
  | _ => .error .attributeError

/-- `results.get(role)` on the specialists dict. -/
def alistGet : List (String × String) → String → Option String
  | [], _ => none
  | (k0, v0) :: rest, k => if k0 = k then some v0 else alistGet rest k

/-- `_spawn_specialists_sequential` (lines 166-206): the four guarded
sequential role invocations.  Returns the `results` dict (insertion
order) and the list of roles invoked, in invocation order.  The
architect call receives `results.get('researcher')` and
`results.get('security')` as they stand when it runs. -/
def _spawn_specialists_sequential (gen : GenEnv) (user_story : PyJson)
    (agents : List String) : List (String × String) × List String :=
  let acc0 : List (String × String) × List String := ([], [])
  let acc1 := if "researcher" ∈ agents then
      (acc0.1 ++ [("researcher", gen.researcher user_story)], acc0.2 ++ ["researcher"])
    else acc0
  let acc2 := if "security" ∈ agents then
      (acc1.1 ++ [("security", gen.security user_story)], acc1.2 ++ ["security"])
    else acc1
  let acc3 := if "architect" ∈ agents then
      (acc2.1 ++ [("architect",
          gen.architect user_story (alistGet acc2.1 "researcher") (alistGet acc2.1 "security"))],
       acc2.2 ++ ["architect"])
    else acc2
  let acc4 := if "documenter" ∈ agents then
      (acc3.1 ++ [("documenter", gen.documenter user_story)], acc3.2 ++ ["documenter"])
    else acc3
  acc4

def optStrJson : Option String → PyJson
  | some s => .str s
  | none => .null

/-- `_execute_gsd` (lines 342-365): the handoff payload written to
`gsd_context.json` — the user story plus the four `context.get(...)`
entries (`None` becomes JSON `null`). -/
def _execute_gsd (user_story : PyJson) (context : List (String × String)) : PyJson :=
  .obj [("user_story", user_story),
        ("research", optStrJson (alistGet context "researcher")),
        ("architecture", optStrJson (alistGet context "architect")),
        ("documentation", optStrJson (alistGet context "documenter")),
        ("security", optStrJson (alistGet context "security"))]

/-- `_wait_for_pr` (lines 367-372): returns the placeholder URL without
consulting the hosting collaborator. -/
def _wait_for_pr (repo : String) (_branch : String) : String :=
  "https://github.com/" ++ repo ++ "/pull/XXX"

/-- Observable stage steps of one `handle_request` run, in execution
order; `branchCreate` records the ignored POST outcome. -/
inductive Event where
  | extract (story : PyJson)
  | route (agents : List String)
  | branchCreate (branch : String) (accepted : Bool)
  | sequence (roleOrder : List String)
  | publish (payload : PyJson)
  | waitPr (url : String)

def stageName : Event → String
  | .extract _ => "Extracting"
  | .route _ => "Routing"
  | .branchCreate _ _ => "BranchProvisioning"
  | .sequence _ => "Sequencing"
  | .publish _ => "Publishing"
  | .waitPr _ => "AwaitingCompletion"

/-- `handle_request` (lines 40-99), with the coordinator's own data
accesses made explicit: line 59 reads `user_story['summary']` (KeyError
if absent), line 68 reads `user_story['title']` and lowercases it inside
`_slugify`, lines 318-340 resolve the default-branch sha (KeyError /
TypeError when the response JSON has no `object.sha`) and then POST the
new ref, discarding the response.  The returned trace lists the stage
steps that completed before the run ended. -/
def handle_request (gen : GenEnv) (host : HostEnv) (user_input repo : String) :
    List Event × Except PyErr String :=
  match _create_user_story (gen.userStoryContent user_input) with
  | .error e => ([], .error e)
  | .ok user_story =>
    match jsonIndex user_story "summary" with
    | .error e => ([], .error e)
    | .ok _ =>
      let agents_needed := _decide_agents user_story
      match jsonIndex user_story "title" with
      | .error e => ([.extract user_story, .route agents_needed], .error e)
      | .ok titleJ =>
        match asPyStr titleJ with
        | .error e => ([.extract user_story, .route agents_needed], .error e)
        | .ok titleS =>
          let branch_name := "feature/" ++ _slugify titleS
          match resolveSha host repo with
          | .error e => ([.extract user_story, .route agents_needed], .error e)
          | .ok sha =>
            let accepted := host.createRefOk repo branch_name sha
            let sr := _spawn_specialists_sequential gen user_story agents_needed
            let payload := _execute_gsd user_story sr.1
            let pr_url := _wait_for_pr repo branch_name
            ([.extract user_story, .route agents_needed,
              .branchCreate branch_name accepted, .sequence sr.2,
              .publish payload, .waitPr pr_url], .ok pr_url)

/-! ### Concrete fixtures used by witnesses and counterexamples -/

def storyEx : PyJson := .obj [("title", .str "Add auth"), ("summary", .str "s")]

def genEx : GenEnv :=
  { userStoryContent := fun _ => "Sure! \x7b\"title\": \"Add auth\", \"summary\": \"s\"\x7d"
    researcher := fun _ => "R"
    security := fun _ => "S"
    architect := fun _ _ _ => "A"
    documenter := fun _ => "D" }

def hostOk : HostEnv :=
  { refsMainJson := fun _ => .obj [("object", .obj [("sha", .str "abc123")])]
    createRefOk := fun _ _ _ => true }

/-- A host that rejects every ref-creation POST (e.g. name collision). -/
def hostRej : HostEnv :=
  { refsMainJson := fun _ => .obj [("object", .obj [("sha", .str "abc123")])]
    createRefOk := fun _ _ _ => false }

/-- A host whose refs lookup fails (404 body has no `object` field). -/
def hostNoRef : HostEnv :=
  { refsMainJson := fun _ => .obj [("message", .str "Not Found")]
    createRefOk := fun _ _ _ => true }

def genBang : GenEnv :=
  { genEx with userStoryContent := fun _ => "\x7b\"title\": \"!!!\", \"summary\": \"s\"\x7d" }

def storyBang : PyJson := .obj [("title", .str "!!!"), ("summary", .str "s")]

/-- The fixed role vocabulary of the data model. -/
def roleVocabulary : List String := ["researcher", "architect", "documenter", "security"]

/-- Key list of a JSON object (insertion order), used to state the
shape of the handoff payload. -/
def pyObjKeys : PyJson → List String
  | .obj kvs => kvs.map Prod.fst
  | _ => []

/-- Every character is a lower-case ASCII alphanumeric or `'-'`. -/
def slugCharsOk (l : List Char) : Bool := l.all (fun c => isLowerAlnumB c || isDash c)

/-- No two adjacent `'-'` characters (separator runs are collapsed). -/
def noDoubleDash : List Char → Bool
  | c1 :: c2 :: rest => !(isDash c1 && isDash c2) && noDoubleDash (c2 :: rest)
  | _ => true

/-- The first character, if any, is not `'-'`. -/
def headNotDash : List Char → Bool
  | [] => true
  | c :: _ => !(isDash c)

/-! ## Generic lemmas about the run coordinator -/

/-- Inversion of a successful `handle_request` run: every stage must
have succeeded, branch provisioning happened before the sequencer, and
the trace and result are fully determined. -/
theorem handle_request_ok_inv (gen : GenEnv) (host : HostEnv) (input repo : String)
    (tr : List Event) (u : String)
    (h : handle_request gen host input repo = (tr, Except.ok u)) :
    ∃ story titleS sha sj,
      _create_user_story (gen.userStoryContent input) = Except.ok story
      ∧ jsonIndex story "summary" = Except.ok sj
      ∧ jsonIndex story "title" = Except.ok (PyJson.str titleS)
      ∧ resolveSha host repo = Except.ok sha
      ∧ u = _wait_for_pr repo ("feature/" ++ _slugify titleS)
      ∧ tr = [Event.extract story, Event.route (_decide_agents story),
          Event.branchCreate ("feature/" ++ _slugify titleS)
            (host.createRefOk repo ("feature/" ++ _slugify titleS) sha),
          Event.sequence (_spawn_specialists_sequential gen story (_decide_agents story)).2,
          Event.publish (_execute_gsd story
            (_spawn_specialists_sequential gen story (_decide_agents story)).1),
          Event.waitPr (_wait_for_pr repo ("feature/" ++ _slugify titleS))] := by
  unfold handle_request at h
  cases h1 : _create_user_story (gen.userStoryContent input) with
  | error e => rw [h1] at h; simp at h
  | ok story =>
    rw [h1] at h
    dsimp only at h
    cases h2 : jsonIndex story "summary" with
    | error e => rw [h2] at h; simp at h
    | ok sj =>
      rw [h2] at h
      dsimp only at h
      cases h3 : jsonIndex story "title" with
      | error e => rw [h3] at h; simp at h
      | ok titleJ =>
        rw [h3] at h
        dsimp only at h
        cases titleJ with
        | str titleS =>
          simp only [asPyStr] at h
          cases h4 : resolveSha host repo with
          | error e => rw [h4] at h; simp at h
          | ok sha =>
            rw [h4] at h
            dsimp only at h
            simp only [Prod.mk.injEq, Except.ok.injEq] at h
            exact ⟨story, titleS, sha, sj, rfl, h2, h3, rfl, h.2.symm, h.1.symm⟩
        | null => simp [asPyStr] at h
        | bool b => simp [asPyStr] at h
        | num n => simp [asPyStr] at h
        | arr xs => simp [asPyStr] at h
        | obj kvs => simp [asPyStr] at h

/-- When the default-branch head cannot be resolved (the refs response
JSON has no `object.sha`), the run fails and nothing is ever published:
the trace never contains a `publish` step. -/
theorem handle_request_resolve_error (gen : GenEnv) (host : HostEnv) (input repo : String)
    (e : PyErr) (he : resolveSha host repo = Except.error e) :
    (∀ u : String, (handle_request gen host input repo).2 ≠ Except.ok u)
    ∧ ∀ p : PyJson, Event.publish p ∉ (handle_request gen host input repo).1 := by
  unfold handle_request
  cases h1 : _create_user_story (gen.userStoryContent input) with
  | error e2 => exact ⟨fun u h => by simp at h, fun p => by simp⟩
  | ok story =>
    dsimp only
    cases h2 : jsonIndex story "summary" with
    | error e2 => exact ⟨fun u h => by simp at h, fun p => by simp⟩
    | ok sj =>
      dsimp only
      cases h3 : jsonIndex story "title" with
      | error e2 => exact ⟨fun u h => by simp at h, fun p => by simp⟩
      | ok titleJ =>
        dsimp only
        cases titleJ with
        | str titleS =>
          simp only [asPyStr]
          rw [he]
          exact ⟨fun u h => by simp at h, fun p => by simp⟩
        | null => exact ⟨fun u h => by simp [asPyStr] at h, fun p => by simp [asPyStr]⟩
        | bool b => exact ⟨fun u h => by simp [asPyStr] at h, fun p => by simp [asPyStr]⟩
        | num n => exact ⟨fun u h => by simp [asPyStr] at h, fun p => by simp [asPyStr]⟩
        | arr xs => exact ⟨fun u h => by simp [asPyStr] at h, fun p => by simp [asPyStr]⟩
        | obj kvs => exact ⟨fun u h => by simp [asPyStr] at h, fun p => by simp [asPyStr]⟩

/-- The outcome of a run does not depend on the hosting collaborator's
answer to the ref-creation POST: line 340 discards it. -/
theorem handle_request_ignores_createRef (gen : GenEnv) (host : HostEnv)
    (f : String → String → PyJson → Bool) (input repo : String) :
    (handle_request gen { host with createRefOk := f } input repo).2
      = (handle_request gen host input repo).2 := by
  unfold handle_request
  cases h1 : _create_user_story (gen.userStoryContent input) with
  | error e => rfl
  | ok story =>
    dsimp only
    cases h2 : jsonIndex story "summary" with
    | error e => rfl
    | ok sj =>
      dsimp only
      cases h3 : jsonIndex story "title" with
      | error e => rfl
      | ok titleJ =>
        dsimp only
        cases titleJ with
        | str titleS =>
          simp only [asPyStr]
          have hr : resolveSha { host with createRefOk := f } repo = resolveSha host repo := rfl
          rw [hr]
          cases h4 : resolveSha host repo with
          | error e => rfl
          | ok sha => rfl
        | null => rfl
        | bool b => rfl
        | num n => rfl
        | arr xs => rfl
        | obj kvs => rfl

/-! ## Claim theorems -/

/-- C3 counterexample: a concrete fully successful run whose stage order
is Extracting, Routing, BranchProvisioning, Sequencing, Publishing,
AwaitingCompletion — NOT the claimed order with the Sequencer before the
Branch Provisioner (the source runs step 3 "Creating GitHub branch"
before step 4 "Spawning specialized agents"). -/
theorem C3_counterexample :
    (handle_request genEx hostOk "x" "o/r").2 = Except.ok "https://github.com/o/r/pull/XXX"
    ∧ (handle_request genEx hostOk "x" "o/r").1.map stageName =
        ["Extracting", "Routing", "BranchProvisioning", "Sequencing", "Publishing",
         "AwaitingCompletion"]
    ∧ ["Extracting", "Routing", "BranchProvisioning", "Sequencing", "Publishing",
         "AwaitingCompletion"] ≠
      ["Extracting", "Routing", "Sequencing", "BranchProvisioning", "Publishing",
         "AwaitingCompletion"] :=
  ⟨rfl, rfl, by decide⟩

/-- C3 (amended): for every successful run the Run Coordinator invokes
the stages in the order Extractor → Router → Branch Provisioner →
Sequencer (driving the Role Executors) → Handoff Publisher → Completion
Watcher. -/
theorem C3_stage_order (gen : GenEnv) (host : HostEnv) (input repo : String)
    (tr : List Event) (u : String)
    (h : handle_request gen host input repo = (tr, Except.ok u)) :
    tr.map stageName = ["Extracting", "Routing", "BranchProvisioning", "Sequencing",
      "Publishing", "AwaitingCompletion"] := by
  obtain ⟨story, titleS, sha, sj, _, _, _, _, _, htr⟩ :=
    handle_request_ok_inv gen host input repo tr u h
  subst htr
  simp [stageName]

theorem C3_stage_order_witness :
    (handle_request genEx hostOk "x" "o/r").1.map stageName =
      ["Extracting", "Routing", "BranchProvisioning", "Sequencing", "Publishing",
       "AwaitingCompletion"] :=
  C3_stage_order genEx hostOk "x" "o/r" (handle_request genEx hostOk "x" "o/r").1
    "https://github.com/o/r/pull/XXX" rfl

/-- C9: the Completion Watcher ignores the branch entirely and on any
successful run the entry point returns exactly the placeholder
`https://github.com/(repo)/pull/XXX`, which never identifies an actual
pull request; being a total function of the repository string alone it
can raise nothing (a `PullRequestTimeoutError` class does not even exist
in the code). -/
theorem C9_wait_for_pr_placeholder (gen : GenEnv) (host : HostEnv) (input repo : String)
    (tr : List Event) (u : String)
    (h : handle_request gen host input repo = (tr, Except.ok u)) :
    u = "https://github.com/" ++ repo ++ "/pull/XXX"
    ∧ ∀ branch1 branch2 : String, _wait_for_pr repo branch1 = _wait_for_pr repo branch2 := by
  obtain ⟨story, titleS, sha, sj, _, _, _, _, hu, _⟩ :=
    handle_request_ok_inv gen host input repo tr u h
  exact ⟨hu, fun b1 b2 => rfl⟩

theorem C9_witness :
    "https://github.com/o/r/pull/XXX" = "https://github.com/" ++ "o/r" ++ "/pull/XXX" :=
  (C9_wait_for_pr_placeholder genEx hostOk "x" "o/r"
    (handle_request genEx hostOk "x" "o/r").1 "https://github.com/o/r/pull/XXX" rfl).1

/-- C2 counterexample: a host that rejects every ref-creation POST, yet
the concrete run completes successfully and the Aggregated Context IS
published downstream — the POST result is discarded on line 340, so
neither a `BranchProvisionError` (a class that does not exist in the
code) nor any other failure occurs. -/
theorem C2_counterexample :
    hostRej.createRefOk "o/r" "feature/add-auth" (.str "abc123") = false
    ∧ (handle_request genEx hostRej "x" "o/r").2 = Except.ok "https://github.com/o/r/pull/XXX"
    ∧ Event.publish (_execute_gsd storyEx
        (_spawn_specialists_sequential genEx storyEx
          ["researcher", "architect", "documenter", "security"]).1)
        ∈ (handle_request genEx hostRej "x" "o/r").1 :=
  ⟨rfl, rfl,
    List.Mem.tail _ (List.Mem.tail _ (List.Mem.tail _ (List.Mem.tail _ (List.Mem.head _))))⟩

/-- C2 (amended): if the default-branch head cannot be resolved the run
fails (with `KeyError`/`TypeError`, as no `BranchProvisionError` class
exists) and no Aggregated Context is ever published — indeed none was
built, since sequencing happens after branch provisioning; but if the
hosting collaborator merely REJECTS ref creation, the rejection is
ignored (line 340 discards the POST result) and the run's outcome is
entirely independent of it. -/
theorem C2_branch_failure_behavior (gen : GenEnv) (host : HostEnv) (input repo : String) :
    ((∃ e, resolveSha host repo = Except.error e) →
        (∀ u : String, (handle_request gen host input repo).2 ≠ Except.ok u)
        ∧ ∀ p : PyJson, Event.publish p ∉ (handle_request gen host input repo).1)
    ∧ ∀ f, (handle_request gen { host with createRefOk := f } input repo).2
        = (handle_request gen host input repo).2 := by
  constructor
  · rintro ⟨e, he⟩
    exact handle_request_resolve_error gen host input repo e he
  · intro f
    exact handle_request_ignores_createRef gen host f input repo

theorem C2_witness :
    ((handle_request genEx hostNoRef "x" "o/r").2 ≠ Except.ok "u0")
    ∧ Event.publish PyJson.null ∉ (handle_request genEx hostNoRef "x" "o/r").1
    ∧ (handle_request genEx hostRej "x" "o/r").2 = (handle_request genEx hostOk "x" "o/r").2 :=
  ⟨((C2_branch_failure_behavior genEx hostNoRef "x" "o/r").1
      ⟨PyErr.keyError "object", rfl⟩).1 "u0",
   ((C2_branch_failure_behavior genEx hostNoRef "x" "o/r").1
      ⟨PyErr.keyError "object", rfl⟩).2 PyJson.null,
   (C2_branch_failure_behavior genEx hostOk "x" "o/r").2 (fun _ _ _ => false)⟩

/-! ## Lemmas about the greedy regex search -/

theorem firstIdxOf_decomp (c : Char) (l : List Char) (i : Nat)
    (h : firstIdxOf c l = some i) :
    ∃ pre suf, l = pre ++ c :: suf ∧ pre.length = i ∧ c ∉ pre := by
  induction l generalizing i with
  | nil => simp [firstIdxOf] at h
  | cons a rest ih =>
    by_cases hac : a = c
    · subst hac
      simp [firstIdxOf] at h
      exact ⟨[], rest, rfl, by simp [h], by simp⟩
    · rw [show firstIdxOf c (a :: rest) = (firstIdxOf c rest).map (· + 1) from by
        simp [firstIdxOf, hac]] at h
      cases hf : firstIdxOf c rest with
      | none => rw [hf] at h; simp at h
      | some i0 =>
        rw [hf] at h
        simp only [Option.map_some', Option.some.injEq] at h
        obtain ⟨pre, suf, hl, hlen, hni⟩ := ih i0 hf
        refine ⟨a :: pre, suf, by simp [hl], by simp [hlen, h], ?_⟩
        intro hmem
        rcases List.mem_cons.mp hmem with he | hin
        · exact hac he.symm
        · exact hni hin

theorem lastIdxOf_eq_none (c : Char) (l : List Char) :
    lastIdxOf c l = none ↔ c ∉ l := by
  induction l with
  | nil => simp [lastIdxOf]
  | cons a rest ih =>
    simp only [lastIdxOf, List.mem_cons]
    cases hf : lastIdxOf c rest with
    | some j =>
      have : c ∈ rest := by
        by_contra hc
        rw [← ih] at hc
        rw [hc] at hf
        exact Option.noConfusion hf
      simp [this]
    | none =>
      have hnr : c ∉ rest := ih.mp hf
      by_cases hca : a = c
      · simp [hca]
      · simp only [if_neg hca]
        constructor
        · intro _ hor
          rcases hor with he | hin
          · exact hca he.symm
          · exact hnr hin
        · intro _
          trivial

theorem lastIdxOf_decomp (c : Char) (l : List Char) (j : Nat)
    (h : lastIdxOf c l = some j) :
    ∃ pre suf, l = pre ++ c :: suf ∧ pre.length = j ∧ c ∉ suf := by
  induction l generalizing j with
  | nil => simp [lastIdxOf] at h
  | cons a rest ih =>
    simp only [lastIdxOf] at h
    cases hf : lastIdxOf c rest with
    | some j0 =>
      rw [hf] at h
      simp only [Option.some.injEq] at h
      obtain ⟨pre, suf, hl, hlen, hns⟩ := ih j0 hf
      exact ⟨a :: pre, suf, by simp [hl], by simp [hlen, h], hns⟩
    | none =>
      rw [hf] at h
      by_cases hca : a = c
      · rw [if_pos hca] at h
        simp only [Option.some.injEq] at h
        exact ⟨[], rest, by simp [hca], by simpa using h, (lastIdxOf_eq_none c rest).mp hf⟩
      · simp [hca] at h

/-- Structure of a successful greedy search: the matched span starts at
the FIRST `\x7b` of the text (no `\x7b` occurs before it), ends at the
LAST `\x7d` (no `\x7d` occurs after it), and has the shape
`\x7b ... \x7d`. -/
theorem reSearch_decomp (s m : List Char) (h : reSearchGreedyBraces s = some m) :
    ∃ pre mid post, s = pre ++ m ++ post ∧ m = '{' :: (mid ++ ['}'])
      ∧ '{' ∉ pre ∧ '}' ∉ post := by
  unfold reSearchGreedyBraces at h
  cases hj : lastIdxOf '}' s with
  | none => rw [hj] at h; simp at h
  | some j =>
    rw [hj] at h
    dsimp only at h
    cases hi : firstIdxOf '{' (s.take j) with
    | none => rw [hi] at h; simp at h
    | some i =>
      rw [hi] at h
      simp only [Option.some.injEq] at h
      obtain ⟨P, S, hPS, hPlen, hSnotin⟩ := lastIdxOf_decomp '}' s j hj
      obtain ⟨Q, R, hQR, hQlen, hQnotin⟩ := firstIdxOf_decomp '{' (s.take j) i hi
      have hTake : s.take j = P := by
        rw [hPS, ← hPlen]
        exact List.take_left P ('}' :: S)
      have hP : P = Q ++ '{' :: R := by rw [← hTake, hQR]
      have hs : s = (Q ++ '{' :: R) ++ '}' :: S := by rw [hPS, hP]
      have hij : j = Q.length + R.length + 1 := by
        rw [← hPlen, hP]
        simp [List.length_append]
        omega
      have hdrop : s.drop i = ('{' :: R) ++ ('}' :: S) := by
        rw [hs, ← hQlen, List.append_assoc, List.drop_left]
      have hm : m = '{' :: (R ++ ['}']) := by
        rw [← h, hdrop]
        have hlen2 : j - i + 1 = ('{' :: R).length + 1 := by
          simp only [List.length_cons]
          omega
        rw [hlen2, List.take_append]
        simp
      refine ⟨Q, R, S, ?_, hm, hQnotin, hSnotin⟩
      rw [hs, hm]
      simp

/-- C1 counterexample.  First conjunct: generator output holding a JSON
object whose fields are missing/mistyped (only a numeric `title`) — the
claim requires `SpecificationFormatError`, but the code returns the
object unvalidated.  Second conjunct: output holding a single
well-formed JSON object with all five fields but a stray `\x7d` later in
the surrounding prose — the claim requires a successful parse of the
first balanced object, but the greedy regex spans to the LAST `\x7d` and
`json.loads` then fails. -/
theorem C1_counterexample :
    _create_user_story "Sure! \x7b\"title\": 1\x7d" =
      Except.ok (PyJson.obj [("title", PyJson.num 1)])
    ∧ _create_user_story
        ("Here you go: \x7b\"title\": \"Fix\", \"summary\": \"s\", \"acceptance_criteria\": [], "
          ++ "\"technical_notes\": \"n\", \"estimated_complexity\": \"low\"\x7d Enjoy! \x7d")
        = Except.error PyErr.jsonDecodeError :=
  ⟨rfl, rfl⟩

/-- C1 (amended): the Specification Extractor takes the span from the
first `\x7b` (before the last `\x7d`) through the LAST `\x7d` of the
generator output — not the first balanced JSON object — feeds it to
`json.loads`, and returns the parsed object WITHOUT validating any
field; when no such span exists it raises
`ValueError("No JSON found in response")` (there is no
`SpecificationParseError` class), and when the span is not valid JSON it
raises `json.JSONDecodeError` (there is no `SpecificationFormatError`
class and no path that could raise one). -/
theorem C1_extractor_behavior (content : String) :
    ((∀ a b c : List Char, content.data ≠ a ++ '{' :: (b ++ '}' :: c)) →
        _create_user_story content =
          Except.error (PyErr.valueError "No JSON found in response"))
    ∧ (∀ j, _create_user_story content = Except.ok j →
        ∃ pre mid post, content.data = pre ++ ('{' :: (mid ++ ['}'])) ++ post
          ∧ '{' ∉ pre ∧ '}' ∉ post
          ∧ loads (String.mk ('{' :: (mid ++ ['}']))) = some j)
    ∧ (∀ m, reSearchGreedyBraces content.data = some m → loads (String.mk m) = none →
        _create_user_story content = Except.error PyErr.jsonDecodeError) := by
  refine ⟨?_, ?_, ?_⟩
  · intro hno
    unfold _create_user_story
    cases hr : reSearchGreedyBraces content.data with
    | none => rfl
    | some m =>
      obtain ⟨pre, mid, post, hdec, hm, _, _⟩ := reSearch_decomp _ _ hr
      exfalso
      apply hno pre mid post
      rw [hdec, hm]
      simp
  · intro j hj
    unfold _create_user_story at hj
    cases hr : reSearchGreedyBraces content.data with
    | none => rw [hr] at hj; simp at hj
    | some m =>
      rw [hr] at hj
      dsimp only at hj
      cases hl : loads (String.mk m) with
      | none => rw [hl] at hj; simp at hj
      | some j2 =>
        rw [hl] at hj
        simp only [Except.ok.injEq] at hj
        obtain ⟨pre, mid, post, hdec, hm, hpre, hpost⟩ := reSearch_decomp _ _ hr
        refine ⟨pre, mid, post, by rw [← hm]; exact hdec, hpre, hpost, ?_⟩
        rw [← hm, hl, hj]
  · intro m hr hl
    unfold _create_user_story
    rw [hr]
    dsimp only
    rw [hl]

theorem C1_witness :
    _create_user_story "no json here" =
      Except.error (PyErr.valueError "No JSON found in response")
    ∧ _create_user_story "x \x7b\x7d y \x7d" = Except.error PyErr.jsonDecodeError := by
  constructor
  · apply (C1_extractor_behavior "no json here").1
    intro a b c hEq
    have hmem : '{' ∈ "no json here".data := by
      rw [hEq]
      exact List.mem_append_right a (List.mem_cons_self _ _)
    exact absurd hmem (by decide)
  · exact (C1_extractor_behavior "x \x7b\x7d y \x7d").2.2 ("\x7b\x7d y \x7d".data) rfl rfl

/-- C4: the Role Router always returns architect and documenter,
returns researcher iff some new-feature keyword occurs in the
lower-cased serialized request, returns security iff some
sensitive-data keyword occurs, and never returns duplicates. -/
theorem C4_router (user_story : PyJson) :
    "architect" ∈ _decide_agents user_story
    ∧ "documenter" ∈ _decide_agents user_story
    ∧ ("researcher" ∈ _decide_agents user_story ↔
        newFeatureWords.any (fun w => strContains (pyLowerStr (dumps user_story)) w) = true)
    ∧ ("security" ∈ _decide_agents user_story ↔
        securityWords.any (fun w => strContains (pyLowerStr (dumps user_story)) w) = true)
    ∧ (_decide_agents user_story).Nodup := by
  unfold _decide_agents
  by_cases h1 : newFeatureWords.any (fun w => strContains (pyLowerStr (dumps user_story)) w) = true <;>
    by_cases h2 : securityWords.any (fun w => strContains (pyLowerStr (dumps user_story)) w) = true <;>
      simp [h1, h2, List.mem_dedup, List.nodup_dedup]

/-- C5: the Sequencer executes exactly the members of the Role Set in
the stable order researcher → security → architect → documenter (so
architect can never be invoked before a present researcher or security
completed), and the architect call receives exactly the
researcher/security outputs present in the context when it runs. -/
theorem C5_sequencer_order (gen : GenEnv) (user_story : PyJson) (agents : List String) :
    (_spawn_specialists_sequential gen user_story agents).2
        = ["researcher", "security", "architect", "documenter"].filter
            (fun r => decide (r ∈ agents))
    ∧ ("architect" ∈ agents →
        alistGet (_spawn_specialists_sequential gen user_story agents).1 "architect"
          = some (gen.architect user_story
              (if "researcher" ∈ agents then some (gen.researcher user_story) else none)
              (if "security" ∈ agents then some (gen.security user_story) else none))) := by
  unfold _spawn_specialists_sequential
  by_cases h1 : "researcher" ∈ agents <;> by_cases h2 : "security" ∈ agents <;>
    by_cases h3 : "architect" ∈ agents <;> by_cases h4 : "documenter" ∈ agents <;>
      simp [h1, h2, h3, h4, alistGet, List.filter]

theorem C5_witness :
    (_spawn_specialists_sequential genEx storyEx ["architect", "documenter"]).2
        = ["architect", "documenter"]
    ∧ alistGet (_spawn_specialists_sequential genEx storyEx ["architect", "documenter"]).1
        "architect" = some (genEx.architect storyEx none none) :=
  ⟨(C5_sequencer_order genEx storyEx ["architect", "documenter"]).1,
   (C5_sequencer_order genEx storyEx ["architect", "documenter"]).2 (by decide)⟩

/-- C6: for a Role Set drawn from the fixed role vocabulary, the keys of
the Aggregated Context produced by the Sequencer are exactly the Role
Set (one entry per member, none for absent roles, no duplicates). -/
theorem C6_context_keys (gen : GenEnv) (user_story : PyJson) (agents : List String)
    (hsub : ∀ a ∈ agents, a ∈ roleVocabulary) :
    ((_spawn_specialists_sequential gen user_story agents).1.map Prod.fst).Nodup
    ∧ ∀ r, r ∈ (_spawn_specialists_sequential gen user_story agents).1.map Prod.fst
        ↔ r ∈ agents := by
  constructor
  · unfold _spawn_specialists_sequential
    by_cases h1 : "researcher" ∈ agents <;> by_cases h2 : "security" ∈ agents <;>
      by_cases h3 : "architect" ∈ agents <;> by_cases h4 : "documenter" ∈ agents <;>
        simp [h1, h2, h3, h4]
  · intro r
    constructor
    · intro hr
      unfold _spawn_specialists_sequential at hr
      by_cases h1 : "researcher" ∈ agents <;> by_cases h2 : "security" ∈ agents <;>
        by_cases h3 : "architect" ∈ agents <;> by_cases h4 : "documenter" ∈ agents <;>
          simp [h1, h2, h3, h4] at hr <;>
            (try rcases hr with rfl | rfl | rfl | rfl) <;>
            first
              | exact h1
              | exact h2
              | exact h3
              | exact h4
    · intro hr
      have hv := hsub r hr
      unfold _spawn_specialists_sequential
      simp only [roleVocabulary, List.mem_cons, List.not_mem_nil, or_false] at hv
      rcases hv with rfl | rfl | rfl | rfl <;>
        by_cases h1 : "researcher" ∈ agents <;> by_cases h2 : "security" ∈ agents <;>
          by_cases h3 : "architect" ∈ agents <;> by_cases h4 : "documenter" ∈ agents <;>
            first
              | (exact absurd hr h1)
              | (exact absurd hr h2)
              | (exact absurd hr h3)
              | (exact absurd hr h4)
              | simp [h1, h2, h3, h4]

theorem C6_witness :
    ((_spawn_specialists_sequential genEx storyEx ["architect", "documenter"]).1.map
        Prod.fst).Nodup
    ∧ ("documenter" ∈ (_spawn_specialists_sequential genEx storyEx
          ["architect", "documenter"]).1.map Prod.fst ↔
        "documenter" ∈ ["architect", "documenter"]) :=
  ⟨(C6_context_keys genEx storyEx ["architect", "documenter"] (by decide)).1,
   (C6_context_keys genEx storyEx ["architect", "documenter"] (by decide)).2 "documenter"⟩

/-- C8: the handoff payload is one object holding the Structured Request
under `user_story` plus exactly one entry per role (`research`,
`architecture`, `documentation`, `security`); a role absent from the
Aggregated Context is mapped to an explicit JSON `null`, a present one
to its output text. -/
theorem C8_handoff_payload (user_story : PyJson) (context : List (String × String)) :
    pyObjKeys (_execute_gsd user_story context)
      = ["user_story", "research", "architecture", "documentation", "security"]
    ∧ jsonIndex (_execute_gsd user_story context) "user_story" = Except.ok user_story
    ∧ (alistGet context "researcher" = none →
        jsonIndex (_execute_gsd user_story context) "research" = Except.ok PyJson.null)
    ∧ (∀ v, alistGet context "researcher" = some v →
        jsonIndex (_execute_gsd user_story context) "research" = Except.ok (PyJson.str v))
    ∧ (alistGet context "architect" = none →
        jsonIndex (_execute_gsd user_story context) "architecture" = Except.ok PyJson.null)
    ∧ (∀ v, alistGet context "architect" = some v →
        jsonIndex (_execute_gsd user_story context) "architecture" = Except.ok (PyJson.str v))
    ∧ (alistGet context "documenter" = none →
        jsonIndex (_execute_gsd user_story context) "documentation" = Except.ok PyJson.null)
    ∧ (∀ v, alistGet context "documenter" = some v →
        jsonIndex (_execute_gsd user_story context) "documentation" = Except.ok (PyJson.str v))
    ∧ (alistGet context "security" = none →
        jsonIndex (_execute_gsd user_story context) "security" = Except.ok PyJson.null)
    ∧ (∀ v, alistGet context "security" = some v →
        jsonIndex (_execute_gsd user_story context) "security" = Except.ok (PyJson.str v)) := by
  refine ⟨rfl, rfl, ?_, ?_, ?_, ?_, ?_, ?_, ?_, ?_⟩ <;>
    first
      | (intro h; simp [_execute_gsd, jsonIndex, pyLookup, optStrJson, h])
      | (intro v h; simp [_execute_gsd, jsonIndex, pyLookup, optStrJson, h])

theorem C8_witness :
    jsonIndex (_execute_gsd storyEx [("researcher", "R")]) "research"
        = Except.ok (PyJson.str "R")
    ∧ jsonIndex (_execute_gsd storyEx [("researcher", "R")]) "security"
        = Except.ok PyJson.null :=
  ⟨(C8_handoff_payload storyEx [("researcher", "R")]).2.2.2.1 "R" rfl,
   (C8_handoff_payload storyEx [("researcher", "R")]).2.2.2.2.2.2.2.2.1 rfl⟩

/-! ## Lemmas about `_slugify` -/

theorem isDash_iff (c : Char) : isDash c = true ↔ c = '-' := by
  simp [isDash]

theorem alnum_not_dash (c : Char) (h : isLowerAlnumB c = true) : isDash c = false := by
  by_contra hc
  have : c = '-' := (isDash_iff c).mp (by revert hc; cases isDash c <;> simp)
  subst this
  revert h
  decide

theorem ndd_cons (c : Char) (l : List Char) :
    noDoubleDash (c :: l) = ((!(isDash c) || headNotDash l) && noDoubleDash l) := by
  cases l with
  | nil => simp [noDoubleDash, headNotDash]
  | cons d rest => simp [noDoubleDash, headNotDash, Bool.not_and]

theorem bool_and_true (a b : Bool) : (a && b) = true ↔ a = true ∧ b = true := by
  cases a <;> cases b <;> simp

theorem bool_or_true (a b : Bool) : (a || b) = true ↔ a = true ∨ b = true := by
  cases a <;> cases b <;> simp

theorem charsOk_cons (c : Char) (l : List Char) :
    slugCharsOk (c :: l) = ((isLowerAlnumB c || isDash c) && slugCharsOk l) := by
  simp [slugCharsOk]

theorem subNonAlnum_charsOk (b : Bool) (l : List Char) :
    slugCharsOk (subNonAlnum b l) = true := by
  induction l generalizing b with
  | nil => rfl
  | cons c rest ih =>
    by_cases ha : isLowerAlnumB c = true
    · rw [show subNonAlnum b (c :: rest) = c :: subNonAlnum false rest from by
        simp [subNonAlnum, ha]]
      rw [charsOk_cons]
      exact (bool_and_true _ _).mpr ⟨(bool_or_true _ _).mpr (Or.inl ha), ih false⟩
    · cases b with
      | true =>
        rw [show subNonAlnum true (c :: rest) = subNonAlnum true rest from by
          simp [subNonAlnum, ha]]
        exact ih true
      | false =>
        rw [show subNonAlnum false (c :: rest) = '-' :: subNonAlnum true rest from by
          simp [subNonAlnum, ha]]
        rw [charsOk_cons]
        exact (bool_and_true _ _).mpr ⟨by decide, ih true⟩

theorem subNonAlnum_true_headNotDash (l : List Char) :
    headNotDash (subNonAlnum true l) = true := by
  induction l with
  | nil => rfl
  | cons c rest ih =>
    by_cases ha : isLowerAlnumB c = true
    · simp [subNonAlnum, ha, headNotDash, alnum_not_dash c ha]
    · simpa [subNonAlnum, ha] using ih

theorem subNonAlnum_ndd (b : Bool) (l : List Char) :
    noDoubleDash (subNonAlnum b l) = true := by
  induction l generalizing b with
  | nil => rfl
  | cons c rest ih =>
    by_cases ha : isLowerAlnumB c = true
    · simp [subNonAlnum, ha, ndd_cons, alnum_not_dash c ha]
      exact ih false
    · cases b with
      | true => simpa [subNonAlnum, ha] using ih true
      | false =>
        simp [subNonAlnum, ha, ndd_cons, subNonAlnum_true_headNotDash rest]
        exact ih true

theorem dropWhile_headNotDash (l : List Char) :
    headNotDash (l.dropWhile isDash) = true := by
  induction l with
  | nil => rfl
  | cons c rest ih =>
    by_cases hc : isDash c = true
    · simpa [List.dropWhile_cons, hc] using ih
    · simp only [Bool.not_eq_true] at hc
      simp [List.dropWhile_cons, hc, headNotDash]

theorem prefix_headNotDash (Y t X : List Char) (hEq : Y ++ t = X)
    (hX : headNotDash X = true) : headNotDash Y = true := by
  cases Y with
  | nil => rfl
  | cons c ys =>
    subst hEq
    simpa [headNotDash] using hX

theorem stripDash_prefix (l : List Char) :
    ∃ t, stripDash l ++ t = l.dropWhile isDash := by
  refine ⟨((l.dropWhile isDash).reverse.takeWhile isDash).reverse, ?_⟩
  unfold stripDash
  rw [← List.reverse_append, List.takeWhile_append_dropWhile, List.reverse_reverse]

theorem ndd_tail (c : Char) (l : List Char) (h : noDoubleDash (c :: l) = true) :
    noDoubleDash l = true := by
  rw [ndd_cons] at h
  exact ((bool_and_true _ _).mp h).2

theorem dropWhile_eq_drop (p : Char → Bool) (l : List Char) :
    ∃ n, l.dropWhile p = l.drop n := by
  induction l with
  | nil => exact ⟨0, rfl⟩
  | cons c rest ih =>
    by_cases hc : p c = true
    · obtain ⟨n, hn⟩ := ih
      exact ⟨n + 1, by simpa [List.dropWhile_cons, hc] using hn⟩
    · simp only [Bool.not_eq_true] at hc
      exact ⟨0, by simp [List.dropWhile_cons, hc]⟩

theorem ndd_drop (n : Nat) (l : List Char) (h : noDoubleDash l = true) :
    noDoubleDash (l.drop n) = true := by
  induction n generalizing l with
  | zero => simpa using h
  | succ n ih =>
    cases l with
    | nil => rfl
    | cons c rest => exact ih rest (ndd_tail c rest h)

theorem ndd_prefix (Y : List Char) (t X : List Char) (hEq : Y ++ t = X)
    (hX : noDoubleDash X = true) : noDoubleDash Y = true := by
  induction Y generalizing X with
  | nil => rfl
  | cons c ys ih =>
    subst hEq
    rw [List.cons_append, ndd_cons] at hX
    obtain ⟨hor, hrest⟩ := (bool_and_true _ _).mp hX
    rw [ndd_cons]
    refine (bool_and_true _ _).mpr ⟨?_, ih (ys ++ t) rfl hrest⟩
    rcases (bool_or_true _ _).mp hor with hnd | hh
    · simp [hnd]
    · simp [prefix_headNotDash ys t (ys ++ t) rfl hh]

theorem charsOk_prefix (Y t X : List Char) (hEq : Y ++ t = X)
    (hX : slugCharsOk X = true) : slugCharsOk Y = true := by
  subst hEq
  simp only [slugCharsOk, List.all_append, Bool.and_eq_true] at hX
  exact hX.1

theorem charsOk_drop (n : Nat) (l : List Char) (h : slugCharsOk l = true) :
    slugCharsOk (l.drop n) = true := by
  induction n generalizing l with
  | zero => simpa using h
  | succ n ih =>
    cases l with
    | nil => rfl
    | cons c rest =>
      simp only [slugCharsOk, List.all_cons, Bool.and_eq_true] at h
      exact ih rest h.2

theorem stripDash_charsOk (l : List Char) (h : slugCharsOk l = true) :
    slugCharsOk (stripDash l) = true := by
  obtain ⟨t, ht⟩ := stripDash_prefix l
  obtain ⟨n, hn⟩ := dropWhile_eq_drop isDash l
  exact charsOk_prefix _ t _ ht (hn ▸ charsOk_drop n l h)

theorem stripDash_ndd (l : List Char) (h : noDoubleDash l = true) :
    noDoubleDash (stripDash l) = true := by
  obtain ⟨t, ht⟩ := stripDash_prefix l
  obtain ⟨n, hn⟩ := dropWhile_eq_drop isDash l
  exact ndd_prefix _ t _ ht (hn ▸ ndd_drop n l h)

theorem stripDash_headNotDash (l : List Char) :
    headNotDash (stripDash l) = true := by
  obtain ⟨t, ht⟩ := stripDash_prefix l
  exact prefix_headNotDash _ t _ ht (dropWhile_headNotDash l)

theorem stripDash_lastNotDash (l : List Char) :
    headNotDash (stripDash l).reverse = true := by
  have hrev : (stripDash l).reverse = (l.dropWhile isDash).reverse.dropWhile isDash := by
    simp [stripDash]
  rw [hrev]
  exact dropWhile_headNotDash _

theorem pyLowerChar_fix (c : Char) (h : (isLowerAlnumB c || isDash c) = true) :
    pyLowerChar c = c := by
  rcases (bool_or_true _ _).mp h with ha | hd
  · have hcond : (65 ≤ c.toNat && c.toNat ≤ 90) = false := by
      rcases (bool_or_true _ _).mp ha with h9 | h4
      · simp only [bool_and_true, decide_eq_true_eq] at h9
        simp only [Bool.and_eq_false_iff, decide_eq_false_iff_not]
        omega
      · simp only [bool_and_true, decide_eq_true_eq] at h4
        simp only [Bool.and_eq_false_iff, decide_eq_false_iff_not]
        omega
    simp [pyLowerChar, hcond]
  · have : c = '-' := (isDash_iff c).mp hd
    subst this
    decide

theorem map_pyLower_fix (l : List Char) (h : slugCharsOk l = true) :
    l.map pyLowerChar = l := by
  induction l with
  | nil => rfl
  | cons c rest ih =>
    rw [charsOk_cons] at h
    obtain ⟨hc, hrest⟩ := (bool_and_true _ _).mp h
    simp [pyLowerChar_fix c hc, ih hrest]

theorem subNonAlnum_fix (n : Nat) : ∀ l : List Char, l.length ≤ n →
    slugCharsOk l = true → noDoubleDash l = true →
    subNonAlnum false l = l
    ∧ (headNotDash l = true → subNonAlnum true l = l) := by
  induction n with
  | zero =>
    intro l hlen _ _
    have : l = [] := List.length_eq_zero.mp (Nat.le_zero.mp hlen)
    subst this
    exact ⟨rfl, fun _ => rfl⟩
  | succ n ih =>
    intro l hlen hchars hndd
    cases l with
    | nil => exact ⟨rfl, fun _ => rfl⟩
    | cons c rest =>
      rw [charsOk_cons] at hchars
      obtain ⟨hc, hrest⟩ := (bool_and_true _ _).mp hchars
      have hlen2 : rest.length ≤ n := by
        simp only [List.length_cons] at hlen
        omega
      have hnddr : noDoubleDash rest = true := ndd_tail c rest hndd
      by_cases ha : isLowerAlnumB c = true
      · have hfix : subNonAlnum false rest = rest := (ih rest hlen2 hrest hnddr).1
        constructor
        · rw [show subNonAlnum false (c :: rest) = c :: subNonAlnum false rest from by
            simp [subNonAlnum, ha], hfix]
        · intro _
          rw [show subNonAlnum true (c :: rest) = c :: subNonAlnum false rest from by
            simp [subNonAlnum, ha], hfix]
      · have hdash : isDash c = true := by
          rcases (bool_or_true _ _).mp hc with h1 | h2
          · exact absurd h1 ha
          · exact h2
        have hceq : c = '-' := (isDash_iff c).mp hdash
        have hheadrest : headNotDash rest = true := by
          rw [ndd_cons] at hndd
          obtain ⟨hor, _⟩ := (bool_and_true _ _).mp hndd
          rcases (bool_or_true _ _).mp hor with hnd | hh
          · rw [hdash] at hnd
            exact absurd hnd (by decide)
          · exact hh
        have hfixT : subNonAlnum true rest = rest := (ih rest hlen2 hrest hnddr).2 hheadrest
        constructor
        · rw [show subNonAlnum false (c :: rest) = '-' :: subNonAlnum true rest from by
            simp [subNonAlnum, ha], hfixT, hceq]
        · intro hhead
          rw [show headNotDash (c :: rest) = !(isDash c) from rfl, hdash] at hhead
          exact absurd hhead (by decide)

theorem dropWhile_id_of_headNotDash (l : List Char) (h : headNotDash l = true) :
    l.dropWhile isDash = l := by
  cases l with
  | nil => rfl
  | cons c rest =>
    rw [show headNotDash (c :: rest) = !(isDash c) from rfl] at h
    have : isDash c = false := by
      cases hc : isDash c
      · rfl
      · rw [hc] at h; exact absurd h (by decide)
    simp [List.dropWhile_cons, this]

theorem stripDash_fix (l : List Char) (hhead : headNotDash l = true)
    (hlast : headNotDash l.reverse = true) : stripDash l = l := by
  unfold stripDash
  rw [dropWhile_id_of_headNotDash l hhead, dropWhile_id_of_headNotDash l.reverse hlast,
    List.reverse_reverse]

theorem subNonAlnum_true_nil (l : List Char)
    (h : l.all (fun c => !(isLowerAlnumB c)) = true) : subNonAlnum true l = [] := by
  induction l with
  | nil => rfl
  | cons c rest ih =>
    simp only [List.all_cons] at h
    obtain ⟨hc, hrest⟩ := (bool_and_true _ _).mp h
    have ha : ¬ isLowerAlnumB c = true := by
      cases hx : isLowerAlnumB c
      · simp
      · rw [hx] at hc; exact absurd hc (by decide)
    rw [show subNonAlnum true (c :: rest) = subNonAlnum true rest from by
      simp [subNonAlnum, ha]]
    exact ih hrest

theorem slug_core_empty (l : List Char)
    (h : l.all (fun c => !(isLowerAlnumB c)) = true) :
    stripDash (subNonAlnum false l) = [] := by
  cases l with
  | nil => rfl
  | cons c rest =>
    simp only [List.all_cons] at h
    obtain ⟨hc, hrest⟩ := (bool_and_true _ _).mp h
    have ha : ¬ isLowerAlnumB c = true := by
      cases hx : isLowerAlnumB c
      · simp
      · rw [hx] at hc; exact absurd hc (by decide)
    rw [show subNonAlnum false (c :: rest) = '-' :: subNonAlnum true rest from by
      simp [subNonAlnum, ha], subNonAlnum_true_nil rest hrest]
    rfl

/-- C7: branch-slug derivation is idempotent (slugifying a slug is a
no-op, and being a pure function of the title it is deterministic), and
the slug consists only of lower-case ASCII alphanumerics and single
`'-'` separators, with no run of two separators and no leading or
trailing separator. -/
theorem C7_slugify_shape (t : String) :
    _slugify (_slugify t) = _slugify t
    ∧ slugCharsOk (_slugify t).data = true
    ∧ noDoubleDash (_slugify t).data = true
    ∧ headNotDash (_slugify t).data = true
    ∧ headNotDash (_slugify t).data.reverse = true := by
  have hchars0 : slugCharsOk (subNonAlnum false ((pyLowerStr t).data)) = true :=
    subNonAlnum_charsOk false _
  have hndd0 : noDoubleDash (subNonAlnum false ((pyLowerStr t).data)) = true :=
    subNonAlnum_ndd false _
  have hchars : slugCharsOk (_slugify t).data = true := stripDash_charsOk _ hchars0
  have hndd : noDoubleDash (_slugify t).data = true := stripDash_ndd _ hndd0
  have hhead : headNotDash (_slugify t).data = true := stripDash_headNotDash _
  have hlast : headNotDash (_slugify t).data.reverse = true := stripDash_lastNotDash _
  refine ⟨?_, hchars, hndd, hhead, hlast⟩
  show String.mk (stripDash (subNonAlnum false ((_slugify t).data.map pyLowerChar)))
      = _slugify t
  rw [map_pyLower_fix _ hchars,
    (subNonAlnum_fix ((_slugify t).data.length) (_slugify t).data le_rfl hchars hndd).1,
    stripDash_fix _ hhead hlast]

/-- C10: a title with no ASCII alphanumeric character after
lower-casing slugifies to the empty string, the derived branch name is
exactly `feature/`, and the run still attempts branch provisioning with
that name (the `branchCreate` step for `feature/` appears in the
trace). -/
theorem C10_empty_slug (t : String)
    (h : (pyLowerStr t).data.all (fun c => !(isLowerAlnumB c)) = true) :
    _slugify t = ""
    ∧ ∀ (gen : GenEnv) (host : HostEnv) (input repo : String) (tr : List Event)
        (res : Except PyErr String) (story sj sha : PyJson),
        handle_request gen host input repo = (tr, res) →
        _create_user_story (gen.userStoryContent input) = Except.ok story →
        jsonIndex story "summary" = Except.ok sj →
        jsonIndex story "title" = Except.ok (PyJson.str t) →
        resolveSha host repo = Except.ok sha →
        Event.branchCreate "feature/" (host.createRefOk repo "feature/" sha) ∈ tr := by
  have hslug : _slugify t = "" := by
    show String.mk (stripDash (subNonAlnum false ((pyLowerStr t).data))) = ""
    rw [slug_core_empty _ h]
  refine ⟨hslug, ?_⟩
  intro gen host input repo tr res story sj sha hrun hstory hsummary htitle hsha
  unfold handle_request at hrun
  rw [hstory] at hrun
  dsimp only at hrun
  rw [hsummary] at hrun
  dsimp only at hrun
  rw [htitle] at hrun
  dsimp only at hrun
  simp only [asPyStr] at hrun
  rw [hsha] at hrun
  dsimp only at hrun
  simp only [Prod.mk.injEq] at hrun
  obtain ⟨htr, _⟩ := hrun
  rw [← htr, hslug]
  have happ : ("feature/" ++ "" : String) = "feature/" := rfl
  rw [happ]
  exact List.Mem.tail _ (List.Mem.tail _ (List.Mem.head _))

theorem C10_witness :
    _slugify "!!!" = ""
    ∧ Event.branchCreate "feature/"
        (hostOk.createRefOk "o/r" "feature/" (PyJson.str "abc123"))
        ∈ (handle_request genBang hostOk "x" "o/r").1 :=
  ⟨(C10_empty_slug "!!!" (by decide)).1,
   (C10_empty_slug "!!!" (by decide)).2 genBang hostOk "x" "o/r"
     (handle_request genBang hostOk "x" "o/r").1
     (handle_request genBang hostOk "x" "o/r").2
     storyBang (PyJson.str "s") (PyJson.str "abc123") rfl rfl rfl rfl rfl⟩
